import Mathlib

/-!
# Verification of the Ram register machine (Ram.py)

Shallow embedding of the execution engine of `Ram.py`: the self-expanding
`Register` store (a Python list of integers plus the program counter), the
operand decoder (`decoper` / `regindex`), the per-opcode command handlers,
the string-keyed dispatcher (`CommandHandler.execute`) and the
fetch-dispatch loop (`Ram.run`, modelled with explicit fuel).

Python-2 specifics carried over faithfully:
* list subscripts wrap negative indices from the end and raise `IndexError`
  when out of range (`pyGet` / `pySet`);
* `/` on two ints is floor division (`Int.fdiv`);
* exceptions abandon the instruction but keep mutations done so far, so a
  failing step returns the error together with the machine state at the
  moment of the raise (`ExecResult.error` / `DecodeResult.error`);
* `CommandHandler.execute` catches the `KeyError` of an unknown opcode,
  prints a message and returns normally, leaving the state unchanged.
-/

/-- Errors a run can raise.  Each constructor corresponds to one `raise`
site (or built-in Python exception) in `Ram.py`. -/
inductive RamError where
  /-- Python `IndexError` from a list subscript out of range. -/
  | indexError
  /-- Python `ValueError` from `int()` applied to a non-numeral token. -/
  | valueError
  /-- `"STORE called with constant operand on line ..."`. -/
  | storeConstantOperand
  /-- `"illegal address 0 for STORE on line ..."`. -/
  | storeIllegalAddress
  /-- `"Division by zero"` raised explicitly by `CommandDiv.execute`. -/
  | divisionByZero
  /-- Python built-in `ZeroDivisionError` from `/` itself. -/
  | zeroDivisionError
  /-- `"GOTO called with illegal operand on line ..."`. -/
  | gotoIllegalOperand
  /-- `"JZERO called with illegal operand on line ..."`. -/
  | jzeroIllegalOperand
  /-- `"Abnormal Termination @pc=..."` raised by `Ram.run`. -/
  | abnormalTermination (pc : Int)
deriving DecidableEq, Repr

/-- The spec groups the four "operand in a form the instruction does not
accept" raises of `Ram.py` under the name InvalidOperandForm. -/
def RamError.isInvalidOperandForm : RamError → Bool
  | .storeConstantOperand => true
  | .storeIllegalAddress => true
  | .gotoIllegalOperand => true
  | .jzeroIllegalOperand => true
  | _ => false

/-- An operand token after the unambiguous first-character test of
`Command.decoper`: `#k` (immediate), `*k` (indirect), bare `k` (direct).
The numeral `k` is whatever Python `int()` accepts, so any integer. -/
inductive Oper where
  | imm (k : Int)
  | ind (k : Int)
  | dir (k : Int)
deriving DecidableEq, Repr

/-- Effective index of a Python list subscript: negative indices count
from the end of a list of length `n`. -/
def pyIdx (n : Nat) (i : Int) : Int :=
  if i < 0 then (n : Int) + i else i

/-- Python list subscript `l[i]`: negative indices count from the end,
out-of-range is an `IndexError` (`none`). -/
def pyGet {α : Type} (l : List α) (i : Int) : Option α :=
  if 0 ≤ pyIdx l.length i ∧ pyIdx l.length i < (l.length : Int) then
    l.get? (pyIdx l.length i).toNat
  else none

/-- Python list subscript assignment `l[i] = v`. -/
def pySet {α : Type} (l : List α) (i : Int) (v : α) : Option (List α) :=
  if 0 ≤ pyIdx l.length i ∧ pyIdx l.length i < (l.length : Int) then
    some (l.set (pyIdx l.length i).toNat v)
  else none

/-- The `Register` object of `Ram.py`: the self-expanding list of register
values together with the program counter kept on the same object. -/
structure Register where
  register : List Int
  pc : Int
deriving DecidableEq, Repr

/-- A step either returns the mutated state or raises, keeping the
mutations already performed. -/
inductive ExecResult where
  | ok (r : Register)
  | error (e : RamError) (r : Register)
deriving DecidableEq, Repr

/-- Like `ExecResult` but additionally carrying the integer a successful
read / decode produced. -/
inductive DecodeResult where
  | ok (r : Register) (v : Int)
  | error (e : RamError) (r : Register)
deriving DecidableEq, Repr

namespace Register

/-- `Register.expand`: append zeros until the length is `toAddress + 1`
(the `while delta > 0: self.append ()` loop). -/
def expand (r : Register) (toAddress : Int) : Register :=
  { r with register := r.register ++ List.replicate (1 + toAddress - r.register.length).toNat 0 }

/-- The guarded expansion shared by `getAddress` and `setAddress`:
`if address >= len (self.register): self.expand (address)`. -/
def grow (r : Register) (address : Int) : Register :=
  if (r.register.length : Int) ≤ address then r.expand address else r

/-- `Register.getAddress`: expand if `address >= len(self.register)`, then
return `self.register[address]`. -/
def getAddress (r : Register) (address : Int) : DecodeResult :=
  match pyGet (r.grow address).register address with
  | some v => .ok (r.grow address) v
  | none => .error .indexError (r.grow address)

/-- `Register.setAddress`: expand if `address >= len(self.register)`, then
`self.register[address] = value`. -/
def setAddress (r : Register) (address value : Int) : ExecResult :=
  match pySet (r.grow address).register address value with
  | some l => .ok { r.grow address with register := l }
  | none => .error .indexError (r.grow address)

/-- `Register.getAccumulator`: `getAddress 0`. -/
def getAccumulator (r : Register) : DecodeResult :=
  r.getAddress 0

/-- `Register.setAccumulator`: `setAddress 0 value`. -/
def setAccumulator (r : Register) (value : Int) : ExecResult :=
  r.setAddress 0 value

/-- `Register.setPc`. -/
def setPc (r : Register) (pc : Int) : Register :=
  { r with pc := pc }

/-- `Register.incrementPc`. -/
def incrementPc (r : Register) : Register :=
  { r with pc := r.pc + 1 }

/-- Observable value of register `a`: the materialized entry, or 0 when the
address has not been materialized yet (what `getAddress` returns for it). -/
def readVal (r : Register) (a : Nat) : Int :=
  r.register.getD a 0

/-- Observable accumulator: the value of register 0. -/
def acc (r : Register) : Int :=
  r.readVal 0

end Register

/-- `Command.decoper`: resolve an operand token to the value it denotes. -/
def decoper (reg : Register) (oper : Oper) : DecodeResult :=
  match oper with
  | .ind k =>
    match reg.getAddress k with
    | .ok r1 j => r1.getAddress j
    | .error e r1 => .error e r1
  | .imm k => .ok reg k
  | .dir k => reg.getAddress k

/-- `Command.regindex`: resolve an operand token to the register address it
denotes.  On an immediate token the Python code would run `int ("#k")`,
which raises `ValueError` (unreachable from `STORE`, which tests for `#`
first). -/
def regindex (reg : Register) (oper : Oper) : DecodeResult :=
  match oper with
  | .ind k => reg.getAddress k
  | .imm _ => .error .valueError reg
  | .dir k => .ok reg k

namespace CommandLoad

/-- `CommandLoad.execute`: `setAccumulator (decoper (oper)); incrementPc`. -/
def execute (reg : Register) (oper : Oper) : ExecResult :=
  match decoper reg oper with
  | .error e r1 => .error e r1
  | .ok r1 v =>
    match r1.setAccumulator v with
    | .ok r2 => .ok r2.incrementPc
    | .error e r2 => .error e r2

end CommandLoad

namespace CommandStore

/-- `CommandStore.execute`: reject `#` operands, resolve the target with
`regindex`, reject target 0, then `setAddress (address, getAccumulator)`
and `incrementPc`. -/
def execute (reg : Register) (oper : Oper) : ExecResult :=
  match oper with
  | .imm _ => .error .storeConstantOperand reg
  | _ =>
    match regindex reg oper with
    | .error e r1 => .error e r1
    | .ok r1 address =>
      if address = 0 then .error .storeIllegalAddress r1
      else
        match r1.getAccumulator with
        | .error e r2 => .error e r2
        | .ok r2 a =>
          match r2.setAddress address a with
          | .ok r3 => .ok r3.incrementPc
          | .error e r3 => .error e r3

end CommandStore

namespace CommandAdd

/-- `CommandAdd.execute`: `setAccumulator (getAccumulator () + decoper (oper));
incrementPc` (arguments evaluated left to right). -/
def execute (reg : Register) (oper : Oper) : ExecResult :=
  match reg.getAccumulator with
  | .error e r1 => .error e r1
  | .ok r1 a =>
    match decoper r1 oper with
    | .error e r2 => .error e r2
    | .ok r2 v =>
      match r2.setAccumulator (a + v) with
      | .ok r3 => .ok r3.incrementPc
      | .error e r3 => .error e r3

end CommandAdd

namespace CommandSub

/-- `CommandSub.execute`: `if decoper (oper) > getAccumulator ():
setAccumulator (0) else: setAccumulator (getAccumulator () - decoper (oper));
incrementPc`.  Note that the operand is decoded once for the comparison and,
on the subtraction path, a second time. -/
def execute (reg : Register) (oper : Oper) : ExecResult :=
  match decoper reg oper with
  | .error e r1 => .error e r1
  | .ok r1 v1 =>
    match r1.getAccumulator with
    | .error e r2 => .error e r2
    | .ok r2 a1 =>
      if a1 < v1 then
        match r2.setAccumulator 0 with
        | .ok r3 => .ok r3.incrementPc
        | .error e r3 => .error e r3
      else
        match r2.getAccumulator with
        | .error e r3 => .error e r3
        | .ok r3 a2 =>
          match decoper r3 oper with
          | .error e r4 => .error e r4
          | .ok r4 v2 =>
            match r4.setAccumulator (a2 - v2) with
            | .ok r5 => .ok r5.incrementPc
            | .error e r5 => .error e r5

end CommandSub

namespace CommandMult

/-- `CommandMult.execute`: `setAccumulator (getAccumulator () * decoper (oper));
incrementPc`. -/
def execute (reg : Register) (oper : Oper) : ExecResult :=
  match reg.getAccumulator with
  | .error e r1 => .error e r1
  | .ok r1 a =>
    match decoper r1 oper with
    | .error e r2 => .error e r2
    | .ok r2 v =>
      match r2.setAccumulator (a * v) with
      | .ok r3 => .ok r3.incrementPc
      | .error e r3 => .error e r3

end CommandMult

namespace CommandDiv

/-- `CommandDiv.execute`: `if decoper (oper) == 0: raise "Division by zero";
setAccumulator (getAccumulator () / decoper (oper)); incrementPc`.  The
operand is decoded again for the division; Python-2 `/` on ints is floor
division, and a zero second decode would be the built-in
`ZeroDivisionError`. -/
def execute (reg : Register) (oper : Oper) : ExecResult :=
  match decoper reg oper with
  | .error e r1 => .error e r1
  | .ok r1 v1 =>
    if v1 = 0 then .error .divisionByZero r1
    else
      match r1.getAccumulator with
      | .error e r2 => .error e r2
      | .ok r2 a =>
        match decoper r2 oper with
        | .error e r3 => .error e r3
        | .ok r3 v2 =>
          if v2 = 0 then .error .zeroDivisionError r3
          else
            match r3.setAccumulator (Int.fdiv a v2) with
            | .ok r4 => .ok r4.incrementPc
            | .error e r4 => .error e r4

end CommandDiv

namespace CommandGoto

/-- `CommandGoto.execute`: reject `#` and `*` operands, else `setPc (int (oper))`. -/
def execute (reg : Register) (oper : Oper) : ExecResult :=
  match oper with
  | .imm _ => .error .gotoIllegalOperand reg
  | .ind _ => .error .gotoIllegalOperand reg
  | .dir k => .ok (reg.setPc k)

end CommandGoto

namespace CommandJzero

/-- `CommandJzero.execute`: reject `#` and `*` operands; `setPc (int (oper))`
if the accumulator is 0, else `incrementPc`. -/
def execute (reg : Register) (oper : Oper) : ExecResult :=
  match oper with
  | .imm _ => .error .jzeroIllegalOperand reg
  | .ind _ => .error .jzeroIllegalOperand reg
  | .dir k =>
    match reg.getAccumulator with
    | .error e r1 => .error e r1
    | .ok r1 a =>
      if a = 0 then .ok (r1.setPc k) else .ok r1.incrementPc

end CommandJzero

namespace CommandEnd

/-- `CommandEnd.execute`: `setPc (0)`, operand ignored. -/
def execute (reg : Register) (_oper : Oper) : ExecResult :=
  .ok (reg.setPc 0)

end CommandEnd

namespace CommandHandler

/-- `CommandHandler.execute`: string-keyed dispatch over the nine command
instances.  A missing key raises `KeyError`, which the handler catches,
printing `"Command ... not found"` and returning normally with the machine
state untouched. -/
def execute (reg : Register) (cmd : String × Oper) : ExecResult :=
  match cmd.1 with
  | "LOAD" => CommandLoad.execute reg cmd.2
  | "STORE" => CommandStore.execute reg cmd.2
  | "ADD" => CommandAdd.execute reg cmd.2
  | "SUB" => CommandSub.execute reg cmd.2
  | "MULT" => CommandMult.execute reg cmd.2
  | "DIV" => CommandDiv.execute reg cmd.2
  | "JZERO" => CommandJzero.execute reg cmd.2
  | "GOTO" => CommandGoto.execute reg cmd.2
  | "END" => CommandEnd.execute reg cmd.2
  | _ => .ok reg

end CommandHandler

/-- Result of running the machine for a bounded number of loop iterations:
the loop exited with `pc == 0`, an exception propagated out of `Ram.run`,
or the iteration bound ran out with the machine still live. -/
inductive Outcome where
  | halted (r : Register)
  | fault (e : RamError) (r : Register)
  | outOfFuel (r : Register)
deriving DecidableEq, Repr

namespace Ram

/-- `Ram.run`: `while pc != 0`, fetch `prog[pc]` (an `IndexError` becomes
the `"Abnormal Termination"` exception) and dispatch it, with explicit fuel
bounding the number of iterations. -/
def run (prog : List (String × Oper)) : Nat → Register → Outcome
  | 0, r => .outOfFuel r
  | fuel + 1, r =>
    if r.pc = 0 then .halted r
    else
      match pyGet prog r.pc with
      | none => .fault (.abnormalTermination r.pc) r
      | some cmd =>
        match CommandHandler.execute r cmd with
        | .ok r1 => run prog fuel r1
        | .error e r1 => .fault e r1

end Ram

/-- The example program written by `__main__` (`/tmp/tmp.ram`): line 0 is
the `("PROG", "REGMACHINE")` sentinel (its operand token is never decoded,
modelled as `dir 0`), lines 1-12 multiply R1 by R2 via repeated addition.
The `END END` operand token is likewise never decoded. -/
def exampleProg : List (String × Oper) :=
  [ ("PROG", .dir 0)
  , ("LOAD", .imm 0)
  , ("STORE", .dir 3)
  , ("LOAD", .dir 1)
  , ("JZERO", .dir 11)
  , ("SUB", .imm 1)
  , ("STORE", .dir 1)
  , ("LOAD", .dir 2)
  , ("ADD", .dir 3)
  , ("STORE", .dir 3)
  , ("GOTO", .dir 3)
  , ("LOAD", .dir 3)
  , ("END", .dir 0)
  ]

/-- Operand class on which the double decode performed by `SUB`/`DIV` is
repeatable: an indirect operand with a negative register index may read a
different cell after the first decode expanded the list (Python's negative
indices count from the end), every other operand re-decodes to the same
value. -/
def Oper.stableIdx : Oper → Bool
  | .ind k => decide (0 ≤ k)
  | _ => true

/-! ## Basic lemmas about the register store -/

namespace Register

theorem getD_replicate_zero (n m : Nat) : (List.replicate n (0 : Int)).getD m 0 = 0 := by
  rcases lt_or_ge m n with h | h
  · rw [List.getD_eq_getElem _ _ (by simpa using h)]
    simp
  · exact List.getD_eq_default _ _ (by simpa using h)

theorem expand_register (r : Register) (x : Int) :
    (r.expand x).register = r.register ++ List.replicate (1 + x - r.register.length).toNat 0 :=
  rfl

theorem expand_pc (r : Register) (x : Int) : (r.expand x).pc = r.pc := rfl

theorem expand_length (r : Register) (x : Int) (h : (r.register.length : Int) ≤ x) :
    ((r.expand x).register.length : Int) = x + 1 := by
  simp only [expand_register, List.length_append, List.length_replicate]
  omega

theorem readVal_expand (r : Register) (x : Int) (b : Nat) :
    (r.expand x).readVal b = r.readVal b := by
  simp only [readVal, expand_register]
  rcases lt_or_ge b r.register.length with h | h
  · exact List.getD_append _ _ _ _ h
  · rw [List.getD_append_right _ _ _ _ h, List.getD_eq_default _ _ h, getD_replicate_zero]

theorem grow_pc (r : Register) (x : Int) : (r.grow x).pc = r.pc := by
  unfold grow; split <;> rfl

theorem readVal_grow (r : Register) (x : Int) (b : Nat) :
    (r.grow x).readVal b = r.readVal b := by
  unfold grow; split
  · exact readVal_expand r x b
  · rfl

theorem acc_grow (r : Register) (x : Int) : (r.grow x).acc = r.acc :=
  readVal_grow r x 0

theorem grow_length_lt (r : Register) (x : Int) (_h : 0 ≤ x) :
    x < ((r.grow x).register.length : Int) := by
  unfold grow; split
  · rw [expand_length _ _ (by assumption)]; omega
  · omega

theorem grow_length_le (r : Register) (x : Int) :
    r.register.length ≤ (r.grow x).register.length := by
  unfold grow; split
  · simp [expand_register]
  · exact le_refl _

theorem grow_eq_of_lt (r : Register) (x : Int) (h : x < (r.register.length : Int)) :
    r.grow x = r := by
  unfold grow
  rw [if_neg (by omega)]

theorem grow_register_append (r : Register) (x : Int) :
    ∃ n, (r.grow x).register = r.register ++ List.replicate n 0 := by
  unfold grow; split
  · exact ⟨_, rfl⟩
  · exact ⟨0, by simp⟩

end Register

theorem pyIdx_nonneg (n : Nat) (a : Int) (h : 0 ≤ a) : pyIdx n a = a := by
  unfold pyIdx
  rw [if_neg (by omega)]

theorem pyIdx_neg (n : Nat) (a : Int) (h : a < 0) : pyIdx n a = (n : Int) + a := by
  unfold pyIdx
  rw [if_pos h]

theorem pyGet_nonneg (l : List Int) (a : Int) (h0 : 0 ≤ a) (hlt : a < (l.length : Int)) :
    pyGet l a = some (l.getD a.toNat 0) := by
  unfold pyGet
  rw [pyIdx_nonneg _ _ h0]
  rw [if_pos ⟨h0, hlt⟩]
  rw [List.get?_eq_getElem?, List.getElem?_eq_getElem (by omega)]
  rw [List.getD_eq_getElem _ _ (by omega)]

theorem pySet_nonneg (l : List Int) (a : Int) (v : Int) (h0 : 0 ≤ a)
    (hlt : a < (l.length : Int)) :
    pySet l a v = some (l.set a.toNat v) := by
  unfold pySet
  rw [pyIdx_nonneg _ _ h0]
  rw [if_pos ⟨h0, hlt⟩]

theorem pyGet_eq_none_iff {α : Type} (l : List α) (a : Int) :
    pyGet l a = none ↔ (a < -(l.length : Int) ∨ (l.length : Int) ≤ a) := by
  unfold pyGet
  rcases lt_or_ge a 0 with ha | ha
  · rw [pyIdx_neg _ _ ha]
    split_ifs with hc
    · rw [List.get?_eq_getElem?]
      constructor
      · intro hn
        rw [List.getElem?_eq_none_iff] at hn
        omega
      · intro hout
        omega
    · constructor
      · intro _
        omega
      · intro _
        rfl
  · rw [pyIdx_nonneg _ _ ha]
    split_ifs with hc
    · rw [List.get?_eq_getElem?]
      constructor
      · intro hn
        rw [List.getElem?_eq_none_iff] at hn
        omega
      · intro hout
        omega
    · constructor
      · intro _
        omega
      · intro _
        rfl

theorem pyGet_ne_nil {α : Type} {l : List α} {a : Int} {v : α}
    (h : pyGet l a = some v) : l ≠ [] := by
  intro hnil
  subst hnil
  unfold pyGet at h
  split_ifs at h with hc
  all_goals simp at h

namespace Register

theorem getAddress_nonneg (r : Register) (a : Int) (h : 0 ≤ a) :
    r.getAddress a = .ok (r.grow a) (r.readVal a.toNat) := by
  unfold getAddress
  rw [pyGet_nonneg _ _ h (grow_length_lt r a h)]
  have hv : (r.grow a).register.getD a.toNat 0 = r.readVal a.toNat := readVal_grow r a a.toNat
  rw [hv]

theorem setAddress_nonneg (r : Register) (a v : Int) (h : 0 ≤ a) :
    r.setAddress a v = .ok ⟨(r.grow a).register.set a.toNat v, r.pc⟩ := by
  unfold setAddress
  rw [pySet_nonneg _ _ _ h (grow_length_lt r a h)]
  simp [grow_pc]

theorem getAddress_neg (r : Register) (a : Int) (h : a < 0) :
    r.getAddress a =
      match pyGet r.register a with
      | some v => .ok r v
      | none => .error .indexError r := by
  unfold getAddress
  rw [grow_eq_of_lt r a (by omega)]

theorem getAddress_ok_state {r r' : Register} {a v : Int}
    (h : r.getAddress a = .ok r' v) : r' = r.grow a := by
  unfold getAddress at h
  rcases hg : pyGet (r.grow a).register a with _ | w <;> rw [hg] at h
  · exact absurd h (by simp)
  · exact ((DecodeResult.ok.injEq _ _ _ _).mp h).1.symm

theorem getAddress_error_state {r r' : Register} {a : Int} {e : RamError}
    (h : r.getAddress a = .error e r') : r' = r.grow a ∧ e = .indexError := by
  unfold getAddress at h
  rcases hg : pyGet (r.grow a).register a with _ | w <;> rw [hg] at h
  · exact ⟨((DecodeResult.error.injEq _ _ _ _).mp h).2.symm,
      ((DecodeResult.error.injEq _ _ _ _).mp h).1.symm⟩
  · exact absurd h (by simp)

theorem getAddress_ok_pc {r r' : Register} {a v : Int}
    (h : r.getAddress a = .ok r' v) : r'.pc = r.pc := by
  rw [getAddress_ok_state h]
  exact grow_pc r a

theorem getAddress_ok_readVal {r r' : Register} {a v : Int}
    (h : r.getAddress a = .ok r' v) : ∀ b, r'.readVal b = r.readVal b := by
  rw [getAddress_ok_state h]
  exact readVal_grow r a

theorem getAddress_ok_length {r r' : Register} {a v : Int}
    (h : r.getAddress a = .ok r' v) : r.register.length ≤ r'.register.length := by
  rw [getAddress_ok_state h]
  exact grow_length_le r a

theorem getAddress_ok_ne_nil {r r' : Register} {a v : Int}
    (h : r.getAddress a = .ok r' v) : r'.register ≠ [] := by
  unfold getAddress at h
  rcases hg : pyGet (r.grow a).register a with _ | w <;> rw [hg] at h
  · exact absurd h (by simp)
  · have hr : r' = r.grow a := ((DecodeResult.ok.injEq _ _ _ _).mp h).1.symm
    subst hr
    exact pyGet_ne_nil hg

theorem getAddress_idem {r r' : Register} {a v : Int}
    (h : r.getAddress a = .ok r' v) : r'.getAddress a = .ok r' v := by
  by_cases hc : 0 ≤ a
  · rw [getAddress_nonneg r a hc] at h
    have hr : r' = r.grow a := ((DecodeResult.ok.injEq _ _ _ _).mp h).1.symm
    have hv : v = r.readVal a.toNat := ((DecodeResult.ok.injEq _ _ _ _).mp h).2.symm
    subst hr
    subst hv
    rw [getAddress_nonneg _ a hc]
    rw [grow_eq_of_lt _ a (grow_length_lt r a hc), readVal_grow]
  · have hr : r' = r.grow a := getAddress_ok_state h
    rw [grow_eq_of_lt r a (by omega)] at hr
    subst hr
    exact h

theorem getAddress_expand_val_zero {r r' : Register} {a v : Int}
    (ha : (r.register.length : Int) ≤ a) (h : r.getAddress a = .ok r' v) : v = 0 := by
  have h0 : 0 ≤ a := by omega
  rw [getAddress_nonneg r a h0] at h
  have hv : v = r.readVal a.toNat := ((DecodeResult.ok.injEq _ _ _ _).mp h).2.symm
  rw [hv, readVal]
  exact List.getD_eq_default _ _ (by omega)

end Register

theorem getD_set_self (l : List Int) (n : Nat) (v : Int) (h : n < l.length) :
    (l.set n v).getD n 0 = v := by
  rw [List.getD_eq_getElem _ _ (by simpa using h)]
  exact List.getElem_set_self (by simpa using h)

theorem getD_set_ne (l : List Int) (n m : Nat) (v : Int) (h : n ≠ m) :
    (l.set n v).getD m 0 = l.getD m 0 := by
  rw [List.getD_eq_getElem?_getD, List.getD_eq_getElem?_getD]
  rw [List.getElem?_set_ne h]

namespace Register

theorem getAccumulator_eq (r : Register) : r.getAccumulator = .ok (r.grow 0) r.acc :=
  getAddress_nonneg r 0 le_rfl

theorem grow_zero_ne_nil (r : Register) : (r.grow 0).register ≠ [] := by
  have hl := grow_length_lt r 0 le_rfl
  intro hnil
  rw [hnil] at hl
  simp at hl

theorem grow_zero_of_ne_nil {r : Register} (h : r.register ≠ []) : r.grow 0 = r := by
  have hp : 0 < r.register.length := List.length_pos.mpr h
  exact grow_eq_of_lt r 0 (by omega)

theorem grow_zero_idem (r : Register) : (r.grow 0).grow 0 = r.grow 0 :=
  grow_zero_of_ne_nil (grow_zero_ne_nil r)

theorem setAccumulator_eq (r : Register) (v : Int) :
    r.setAccumulator v = .ok ⟨(r.grow 0).register.set 0 v, r.pc⟩ := by
  have h := setAddress_nonneg r 0 v le_rfl
  simpa using h

theorem acc_mk_set_zero (l : List Int) (p v : Int) (h : 0 < l.length) :
    (Register.mk (l.set 0 v) p).acc = v :=
  getD_set_self l 0 v h

end Register

/-! ## Lemmas about operand decoding -/

theorem decoper_ok_pc {r r1 : Register} {o : Oper} {v : Int}
    (h : decoper r o = .ok r1 v) : r1.pc = r.pc := by
  cases o with
  | imm k =>
    simp only [decoper] at h
    obtain ⟨rfl, rfl⟩ := (DecodeResult.ok.injEq _ _ _ _).mp h
    rfl
  | dir k => exact Register.getAddress_ok_pc h
  | ind k =>
    simp only [decoper] at h
    cases hga : r.getAddress k with
    | error e r2 =>
      rw [hga] at h
      exact absurd h (by simp)
    | ok r2 j =>
      rw [hga] at h
      rw [Register.getAddress_ok_pc h]
      exact Register.getAddress_ok_pc hga

theorem decoper_ok_readVal {r r1 : Register} {o : Oper} {v : Int}
    (h : decoper r o = .ok r1 v) : ∀ b, r1.readVal b = r.readVal b := by
  cases o with
  | imm k =>
    simp only [decoper] at h
    obtain ⟨rfl, rfl⟩ := (DecodeResult.ok.injEq _ _ _ _).mp h
    intro b
    rfl
  | dir k => exact Register.getAddress_ok_readVal h
  | ind k =>
    simp only [decoper] at h
    cases hga : r.getAddress k with
    | error e r2 =>
      rw [hga] at h
      exact absurd h (by simp)
    | ok r2 j =>
      rw [hga] at h
      intro b
      rw [Register.getAddress_ok_readVal h b]
      exact Register.getAddress_ok_readVal hga b

theorem decoper_ok_acc {r r1 : Register} {o : Oper} {v : Int}
    (h : decoper r o = .ok r1 v) : r1.acc = r.acc :=
  decoper_ok_readVal h 0

theorem decoper_ok_ne_nil {r r1 : Register} {o : Oper} {v : Int}
    (ho : ∀ k, o ≠ Oper.imm k) (h : decoper r o = .ok r1 v) : r1.register ≠ [] := by
  cases o with
  | imm k => exact absurd rfl (ho k)
  | dir k => exact Register.getAddress_ok_ne_nil h
  | ind k =>
    simp only [decoper] at h
    cases hga : r.getAddress k with
    | error e r2 =>
      rw [hga] at h
      exact absurd h (by simp)
    | ok r2 j =>
      rw [hga] at h
      exact Register.getAddress_ok_ne_nil h

theorem decoper_stable {r r1 : Register} {o : Oper} {v : Int}
    (hs : o.stableIdx = true) (h : decoper r o = .ok r1 v) :
    decoper r1 o = .ok r1 v := by
  cases o with
  | imm k =>
    simp only [decoper] at h ⊢
    obtain ⟨rfl, rfl⟩ := (DecodeResult.ok.injEq _ _ _ _).mp h
    rfl
  | dir k => exact Register.getAddress_idem h
  | ind k =>
    have hk : 0 ≤ k := of_decide_eq_true hs
    simp only [decoper] at h ⊢
    cases hga : r.getAddress k with
    | error e r2 =>
      rw [hga] at h
      exact absurd h (by simp)
    | ok r2 j =>
      rw [hga] at h
      have h2 : r2 = r.grow k := Register.getAddress_ok_state hga
      have hval : j = r.readVal k.toNat := by
        rw [Register.getAddress_nonneg r k hk] at hga
        exact ((DecodeResult.ok.injEq _ _ _ _).mp hga).2.symm
      have hlen2 : k < (r2.register.length : Int) := by
        rw [h2]
        exact Register.grow_length_lt r k hk
      have hlen1 : k < (r1.register.length : Int) := by
        have := Register.getAddress_ok_length h
        omega
      have hval1 : r1.readVal k.toNat = j := by
        rw [Register.getAddress_ok_readVal h k.toNat, h2, Register.readVal_grow]
        exact hval.symm
      have hga1 : r1.getAddress k = .ok r1 j := by
        rw [Register.getAddress_nonneg r1 k hk, Register.grow_eq_of_lt r1 k hlen1, hval1]
      rw [hga1]
      exact Register.getAddress_idem h

theorem decoper_stable_grow {r r1 : Register} {o : Oper} {v : Int}
    (hs : o.stableIdx = true) (h : decoper r o = .ok r1 v) :
    decoper (r1.grow 0) o = .ok (r1.grow 0) v := by
  cases o with
  | imm k =>
    simp only [decoper] at h ⊢
    obtain ⟨rfl, rfl⟩ := (DecodeResult.ok.injEq _ _ _ _).mp h
    rfl
  | ind k =>
    rw [Register.grow_zero_of_ne_nil (decoper_ok_ne_nil (fun k2 => by simp) h)]
    exact decoper_stable hs h
  | dir k =>
    rw [Register.grow_zero_of_ne_nil (decoper_ok_ne_nil (fun k2 => by simp) h)]
    exact decoper_stable hs h

/-- A decode that resolved to a non-zero value re-decodes to the same value
in the post-decode state, for *every* operand.  The only unstable class —
an indirect operand with a negative register index whose outer read
expanded the list — necessarily resolved to a freshly appended 0, so a
non-zero resolution means the decode left the state unchanged (or had a
non-negative index, which is stable). -/
theorem decoper_stable_of_ne_zero {r r1 : Register} {o : Oper} {v : Int}
    (hv : v ≠ 0) (h : decoper r o = .ok r1 v) : decoper r1 o = .ok r1 v := by
  cases o with
  | imm k =>
    simp only [decoper] at h ⊢
    obtain ⟨rfl, rfl⟩ := (DecodeResult.ok.injEq _ _ _ _).mp h
    rfl
  | dir k => exact Register.getAddress_idem h
  | ind k =>
    by_cases hk : 0 ≤ k
    · exact decoper_stable (decide_eq_true hk) h
    · simp only [decoper] at h ⊢
      cases hga : r.getAddress k with
      | error e r2 =>
        rw [hga] at h
        exact absurd h (by simp)
      | ok r2 j =>
        rw [hga] at h
        have hra : r2 = r := by
          have hst := Register.getAddress_ok_state hga
          rwa [Register.grow_eq_of_lt r k (by omega)] at hst
        rw [hra] at hga h
        by_cases hj : (r.register.length : Int) ≤ j
        · exact absurd (Register.getAddress_expand_val_zero hj h) hv
        · have hr1 : r1 = r := by
            have hst := Register.getAddress_ok_state h
            rwa [Register.grow_eq_of_lt r j (by omega)] at hst
          rw [hr1] at h
          rw [hr1, hga]
          exact h

theorem decoper_stable_grow_of_ne_zero {r r1 : Register} {o : Oper} {v : Int}
    (hv : v ≠ 0) (h : decoper r o = .ok r1 v) :
    decoper (r1.grow 0) o = .ok (r1.grow 0) v := by
  cases o with
  | imm k =>
    simp only [decoper] at h ⊢
    obtain ⟨rfl, rfl⟩ := (DecodeResult.ok.injEq _ _ _ _).mp h
    rfl
  | ind k =>
    rw [Register.grow_zero_of_ne_nil (decoper_ok_ne_nil (fun k2 => by simp) h)]
    exact decoper_stable_of_ne_zero hv h
  | dir k =>
    rw [Register.grow_zero_of_ne_nil (decoper_ok_ne_nil (fun k2 => by simp) h)]
    exact decoper_stable_of_ne_zero hv h

namespace Register

theorem acc_incrementPc (r : Register) : r.incrementPc.acc = r.acc := rfl

theorem pc_incrementPc (r : Register) : r.incrementPc.pc = r.pc + 1 := rfl

theorem readVal_incrementPc (r : Register) (b : Nat) : r.incrementPc.readVal b = r.readVal b := rfl

theorem acc_setPc (r : Register) (p : Int) : (r.setPc p).acc = r.acc := rfl

theorem register_setPc (r : Register) (p : Int) : (r.setPc p).register = r.register := rfl

theorem readVal_setPc (r : Register) (p : Int) (b : Nat) : (r.setPc p).readVal b = r.readVal b := rfl

theorem pc_setPc (r : Register) (p : Int) : (r.setPc p).pc = p := rfl

theorem acc_mk (l : List Int) (p : Int) : (Register.mk l p).acc = l.getD 0 0 := rfl

theorem pc_mk (l : List Int) (p : Int) : (Register.mk l p).pc = p := rfl

theorem readVal_mk (l : List Int) (p : Int) (b : Nat) : (Register.mk l p).readVal b = l.getD b 0 := rfl

theorem grow_zero_length_pos (r : Register) : 0 < (r.grow 0).register.length := by
  have := grow_zero_ne_nil r
  exact List.length_pos.mpr this

end Register

/-! ## The claims -/

/-- C2: whenever `DIV`'s operand resolves to 0 (any addressing mode, any
machine state), `CommandDiv.execute` fails with the `"Division by zero"`
error, and the machine state at the raise has the same accumulator value
and the same program counter as before the instruction (the decode may
only have materialized fresh zero registers). -/
theorem div_by_zero_faults_preserving_state (r r1 : Register) (oper : Oper)
    (h : decoper r oper = .ok r1 0) :
    CommandDiv.execute r oper = .error .divisionByZero r1 ∧
    r1.acc = r.acc ∧ r1.pc = r.pc := by
  refine ⟨?_, decoper_ok_acc h, decoper_ok_pc h⟩
  simp [CommandDiv.execute, h]

/-- Witness for C2: `DIV #0` on the fresh machine. -/
theorem div_by_zero_faults_preserving_state_wit :
    CommandDiv.execute ⟨[], 1⟩ (Oper.imm 0) = .error .divisionByZero ⟨[], 1⟩ ∧
    Register.acc ⟨[], 1⟩ = Register.acc ⟨[], 1⟩ ∧
    Register.pc ⟨[], 1⟩ = Register.pc ⟨[], 1⟩ :=
  div_by_zero_faults_preserving_state ⟨[], 1⟩ ⟨[], 1⟩ (Oper.imm 0) rfl

/-- Counterexample to C3 as stated: in the state with registers `[7, 2]`,
the indirect operand `*-1` resolves to 0 (register -1 is the last cell,
holding 2; register 2 is materialized as 0), so the claim predicts an
accumulator of `max 0 (7 - 0) = 7`; executing `SUB *-1` instead leaves the
accumulator at 0, because the second decode performed by the subtraction
re-reads the now-expanded list, where index -1 is the appended 0 and the
operand re-resolves to the accumulator value 7. -/
theorem sub_indirect_negative_index_cx :
    decoper ⟨[7, 2], 1⟩ (Oper.ind (-1)) = .ok ⟨[7, 2, 0], 1⟩ 0 ∧
    CommandSub.execute ⟨[7, 2], 1⟩ (Oper.ind (-1)) = .ok ⟨[0, 2, 0], 2⟩ ∧
    Register.acc ⟨[0, 2, 0], 2⟩ = 0 ∧
    max 0 (Register.acc ⟨[7, 2], 1⟩ - 0) = 7 ∧
    (0 : Int) ≠ 7 := by
  refine ⟨by decide, by decide, by decide, by decide, by decide⟩

/-- C3 amended: for every operand that re-decodes stably (immediate,
direct, or indirect with non-negative register index — an indirect operand
with a negative index is re-resolved by `SUB` after the first decode may
have expanded the list, and Python's from-the-end indexing can then
produce a different value), if the operand resolves to `v`, `SUB` sets the
accumulator to `max 0 (accumulator - v)`, saturating at zero, and
increments the program counter by 1. -/
theorem sub_saturates_for_stable_operands (r r1 : Register) (oper : Oper) (v : Int)
    (hs : oper.stableIdx = true) (h : decoper r oper = .ok r1 v) :
    ∃ r', CommandSub.execute r oper = .ok r' ∧
      r'.acc = max 0 (r.acc - v) ∧ r'.pc = r.pc + 1 := by
  have hacc1 : r1.acc = r.acc := decoper_ok_acc h
  have hpc1 : r1.pc = r.pc := decoper_ok_pc h
  have hlen : 0 < (r1.grow 0).register.length := Register.grow_zero_length_pos r1
  by_cases hb : r1.acc < v
  · simp only [CommandSub.execute, h, Register.getAccumulator_eq, if_pos hb,
      Register.setAccumulator_eq]
    refine ⟨_, rfl, ?_, ?_⟩
    · rw [Register.acc_incrementPc, Register.acc_mk]
      rw [Register.grow_zero_idem]
      rw [getD_set_self _ _ _ hlen]
      rw [max_eq_left (by omega)]
    · rw [Register.pc_incrementPc, Register.pc_mk, Register.grow_pc, hpc1]
  · simp only [CommandSub.execute, h, Register.getAccumulator_eq, if_neg hb,
      Register.grow_zero_idem, Register.acc_grow, decoper_stable_grow hs h,
      Register.setAccumulator_eq]
    refine ⟨_, rfl, ?_, ?_⟩
    · rw [Register.acc_incrementPc, Register.acc_mk]
      rw [getD_set_self _ _ _ hlen]
      rw [max_eq_right (by omega), hacc1]
    · rw [Register.pc_incrementPc, Register.pc_mk, Register.grow_pc, hpc1]

/-- Witness for the amended C3: `SUB #9` with accumulator 5 saturates to 0. -/
theorem sub_saturates_for_stable_operands_wit :
    ∃ r', CommandSub.execute ⟨[5], 1⟩ (Oper.imm 9) = .ok r' ∧
      r'.acc = max 0 (Register.acc ⟨[5], 1⟩ - 9) ∧ r'.pc = Register.pc ⟨[5], 1⟩ + 1 :=
  sub_saturates_for_stable_operands ⟨[5], 1⟩ ⟨[5], 1⟩ (Oper.imm 9) 9 rfl rfl

/-- Counterexample to C8 as stated: with accumulator -7, `DIV #2` yields
-4, the floor quotient (Python-2 `/` on ints rounds toward negative
infinity), not the truncating (toward-zero) quotient -3 the claim
demands. -/
theorem div_floor_not_trunc_cx :
    CommandDiv.execute ⟨[-7], 1⟩ (Oper.imm 2) = .ok ⟨[-4], 2⟩ ∧
    Register.acc ⟨[-4], 2⟩ = -4 ∧
    Int.tdiv (-7) 2 = -3 ∧
    (-4 : Int) ≠ -3 := by
  refine ⟨by decide, by decide, by decide, by decide⟩

/-- C8 amended: whenever `DIV` executes without error — its operand
resolves to a non-zero value `v`, under any addressing mode — the
accumulator becomes the floor (toward negative infinity) integer quotient
of the old accumulator by `v`, Python-2's `/` semantics (not the
truncating quotient), and the program counter is incremented by 1.  The
double decode performed by `DIV` cannot disagree with itself on a
non-error run: a decode that expands the register list resolves to a
freshly appended 0, which `DIV` turns into the DivisionByZero error before
the second decode (`decoper_stable_of_ne_zero`). -/
theorem div_floor_semantics (r r1 : Register) (oper : Oper) (v : Int)
    (h : decoper r oper = .ok r1 v) (hv : v ≠ 0) :
    ∃ r', CommandDiv.execute r oper = .ok r' ∧
      r'.acc = Int.fdiv r.acc v ∧ r'.pc = r.pc + 1 := by
  have hacc1 : r1.acc = r.acc := decoper_ok_acc h
  have hpc1 : r1.pc = r.pc := decoper_ok_pc h
  have hlen : 0 < (r1.grow 0).register.length := Register.grow_zero_length_pos r1
  simp only [CommandDiv.execute, h, if_neg hv, Register.getAccumulator_eq,
    decoper_stable_grow_of_ne_zero hv h, Register.grow_zero_idem, Register.acc_grow,
    Register.setAccumulator_eq]
  refine ⟨_, rfl, ?_, ?_⟩
  · rw [Register.acc_incrementPc, Register.acc_mk]
    rw [getD_set_self _ _ _ hlen]
    rw [hacc1]
  · rw [Register.pc_incrementPc, Register.pc_mk, Register.grow_pc, hpc1]

/-- Witness for the amended C8: `DIV #2` with accumulator -7 gives the
floor quotient -4. -/
theorem div_floor_semantics_wit :
    ∃ r', CommandDiv.execute ⟨[-7], 1⟩ (Oper.imm 2) = .ok r' ∧
      r'.acc = Int.fdiv (Register.acc ⟨[-7], 1⟩) 2 ∧ r'.pc = Register.pc ⟨[-7], 1⟩ + 1 :=
  div_floor_semantics ⟨[-7], 1⟩ ⟨[-7], 1⟩ (Oper.imm 2) 2 rfl (by decide)

/-- C5: on the freshly constructed register store (the empty list), reading
any address `k ≥ 0` returns 0; after writing `v` at `k`, reading `k` gives
`v` while reading any other unwritten address `k' ≥ 0` still gives 0. -/
theorem fresh_registers_default_zero_write_isolated (p k k' v : Int)
    (hk : 0 ≤ k) (hk' : 0 ≤ k') (hne : k' ≠ k) :
    (∃ r1, Register.getAddress ⟨[], p⟩ k = .ok r1 0) ∧
    ∃ r2, Register.setAddress ⟨[], p⟩ k v = .ok r2 ∧
      (∃ r3, r2.getAddress k = .ok r3 v) ∧
      (∃ r4, r2.getAddress k' = .ok r4 0) := by
  have hz : (Register.mk [] p).readVal k.toNat = 0 := by
    rw [Register.readVal_mk]
    simp
  have hlt : k.toNat < (((Register.mk [] p).grow k).register).length := by
    have := Register.grow_length_lt (Register.mk [] p) k hk
    omega
  constructor
  · refine ⟨(Register.mk [] p).grow k, ?_⟩
    rw [Register.getAddress_nonneg _ _ hk, hz]
  · refine ⟨⟨((Register.mk [] p).grow k).register.set k.toNat v, p⟩,
      Register.setAddress_nonneg _ _ _ hk, ?_, ?_⟩
    · refine ⟨(Register.mk (((Register.mk [] p).grow k).register.set k.toNat v) p).grow k, ?_⟩
      rw [Register.getAddress_nonneg _ _ hk]
      have hv : (Register.mk (((Register.mk [] p).grow k).register.set k.toNat v) p).readVal
          k.toNat = v := by
        rw [Register.readVal_mk]
        exact getD_set_self _ _ _ hlt
      rw [hv]
    · refine ⟨(Register.mk (((Register.mk [] p).grow k).register.set k.toNat v) p).grow k', ?_⟩
      rw [Register.getAddress_nonneg _ _ hk']
      have hv : (Register.mk (((Register.mk [] p).grow k).register.set k.toNat v) p).readVal
          k'.toNat = 0 := by
        rw [Register.readVal_mk]
        rw [getD_set_ne _ _ _ _ (by omega)]
        have hg := Register.readVal_grow (Register.mk [] p) k k'.toNat
        rw [Register.readVal, Register.readVal_mk] at hg
        rw [hg]
        simp
      rw [hv]

/-- Witness for C5 at `p = 1`, `k = 2`, `k' = 0`, `v = 9`. -/
theorem fresh_registers_default_zero_write_isolated_wit :
    (∃ r1, Register.getAddress ⟨[], 1⟩ 2 = .ok r1 0) ∧
    ∃ r2, Register.setAddress ⟨[], 1⟩ 2 9 = .ok r2 ∧
      (∃ r3, r2.getAddress 2 = .ok r3 9) ∧
      (∃ r4, r2.getAddress 0 = .ok r4 0) :=
  fresh_registers_default_zero_write_isolated 1 2 0 9 (by decide) (by decide) (by decide)

/-- Counterexample to C9 as stated: on the empty store, reading or writing
address -1 is a Python `IndexError` (the negative index wraps from the end
of a length-0 list), so the claim's "no error is possible for either
operation" fails for negative integer addresses. -/
theorem read_negative_address_errors_cx :
    Register.getAddress ⟨[], 1⟩ (-1) = .error .indexError ⟨[], 1⟩ ∧
    Register.setAddress ⟨[], 1⟩ (-1) 5 = .error .indexError ⟨[], 1⟩ := by
  refine ⟨by decide, by decide⟩

/-- C9 amended: for every address `a ≥ 0` (rather than every integer
address), `read` and `write` always succeed: the read expands the store as
needed and returns the value at `a` (0 when not yet materialized), and the
write expands as needed and sets `a` to the value, leaving the program
counter alone. -/
theorem rw_nonneg_total (r : Register) (a v : Int) (h : 0 ≤ a) :
    r.getAddress a = .ok (r.grow a) (r.readVal a.toNat) ∧
    ∃ r', r.setAddress a v = .ok r' ∧ r'.readVal a.toNat = v ∧ r'.pc = r.pc := by
  refine ⟨Register.getAddress_nonneg r a h, ?_⟩
  refine ⟨_, Register.setAddress_nonneg r a v h, ?_, rfl⟩
  rw [Register.readVal_mk]
  refine getD_set_self _ _ _ ?_
  have := Register.grow_length_lt r a h
  omega

/-- Witness for the amended C9 at `r = ⟨[], 1⟩`, `a = 3`, `v = 4`. -/
theorem rw_nonneg_total_wit :
    Register.getAddress ⟨[], 1⟩ 3 =
      .ok (Register.grow ⟨[], 1⟩ 3) (Register.readVal ⟨[], 1⟩ (Int.toNat 3)) ∧
    ∃ r', Register.setAddress ⟨[], 1⟩ 3 4 = .ok r' ∧
      r'.readVal (Int.toNat 3) = 4 ∧ r'.pc = Register.pc ⟨[], 1⟩ :=
  rw_nonneg_total ⟨[], 1⟩ 3 4 (by decide)

/-! ## Lemmas about STORE -/

theorem setAddress_error_kind {r r' : Register} {a v : Int} {e : RamError}
    (h : r.setAddress a v = .error e r') : e = .indexError := by
  unfold Register.setAddress at h
  cases hs : pySet (r.grow a).register a v with
  | some l =>
    rw [hs] at h
    exact absurd h (by simp)
  | none =>
    rw [hs] at h
    exact ((ExecResult.error.injEq _ _ _ _).mp h).1.symm

theorem regindex_ok_pc {r r1 : Register} {o : Oper} {t : Int}
    (h : regindex r o = .ok r1 t) : r1.pc = r.pc := by
  cases o with
  | imm k => exact absurd h (by simp [regindex])
  | dir k =>
    simp only [regindex] at h
    obtain ⟨rfl, rfl⟩ := (DecodeResult.ok.injEq _ _ _ _).mp h
    rfl
  | ind k => exact Register.getAddress_ok_pc h

theorem regindex_ok_readVal {r r1 : Register} {o : Oper} {t : Int}
    (h : regindex r o = .ok r1 t) : ∀ b, r1.readVal b = r.readVal b := by
  cases o with
  | imm k => exact absurd h (by simp [regindex])
  | dir k =>
    simp only [regindex] at h
    obtain ⟨rfl, rfl⟩ := (DecodeResult.ok.injEq _ _ _ _).mp h
    intro b
    rfl
  | ind k => exact Register.getAddress_ok_readVal h

theorem regindex_error_kind {r r1 : Register} {o : Oper} {e : RamError}
    (ho : ∀ k, o ≠ Oper.imm k) (h : regindex r o = .error e r1) : e = .indexError := by
  cases o with
  | imm k => exact absurd rfl (ho k)
  | dir k => exact absurd h (by simp [regindex])
  | ind k => exact (Register.getAddress_error_state h).2

/-- `CommandStore.execute` on a non-immediate operand runs the body after
the `#` test. -/
theorem store_execute_not_imm (r : Register) (oper : Oper) (h : ∀ k, oper ≠ Oper.imm k) :
    CommandStore.execute r oper =
      match regindex r oper with
      | .error e r1 => .error e r1
      | .ok r1 address =>
        if address = 0 then .error .storeIllegalAddress r1
        else
          match r1.getAccumulator with
          | .error e r2 => .error e r2
          | .ok r2 a =>
            match r2.setAddress address a with
            | .ok r3 => .ok r3.incrementPc
            | .error e r3 => .error e r3 := by
  cases oper with
  | imm k => exact absurd rfl (h k)
  | ind k => rfl
  | dir k => rfl

/-- Counterexample to C6 as stated: `STORE -2` on the fresh machine has a
direct operand resolving to the target address -2, which is neither
immediate nor 0, so the claim promises a successful write and a PC
increment; the code instead raises a Python `IndexError` (the negative
index is out of range for the length-1 list materialized by reading the
accumulator), which is not one of the InvalidOperandForm errors, and
neither writes nor bumps the PC. -/
theorem store_negative_address_index_error_cx :
    CommandStore.execute ⟨[], 1⟩ (Oper.dir (-2)) = .error .indexError ⟨[0], 1⟩ ∧
    RamError.isInvalidOperandForm .indexError = false ∧
    regindex ⟨[], 1⟩ (Oper.dir (-2)) = .ok ⟨[], 1⟩ (-2) ∧
    (-2 : Int) ≠ 0 := by
  refine ⟨by decide, by decide, by decide, by decide⟩

/-- C6 amended: STORE raises an InvalidOperandForm error — before any
register value changes and before the PC changes — exactly when its operand
is immediate (`#k`, any `k`) or its resolved target address equals 0; for
every other direct or indirect operand *whose resolved target address is
positive* it writes the accumulator's value to the resolved address and
increments the PC by 1.  (A negative resolved target is instead subject to
Python's from-the-end list indexing and can raise `IndexError`, which is
not an InvalidOperandForm error.) -/
theorem store_semantics (r : Register) (oper : Oper) :
    (∀ k, oper = Oper.imm k → CommandStore.execute r oper = .error .storeConstantOperand r) ∧
    (∀ r1, regindex r oper = .ok r1 0 →
      CommandStore.execute r oper = .error .storeIllegalAddress r1 ∧
      r1.pc = r.pc ∧ ∀ b, r1.readVal b = r.readVal b) ∧
    (∀ r1 t, regindex r oper = .ok r1 t → 0 < t →
      ∃ r', CommandStore.execute r oper = .ok r' ∧ r'.pc = r.pc + 1 ∧
        r'.readVal t.toNat = r.acc) ∧
    (∀ e r1, CommandStore.execute r oper = .error e r1 → e.isInvalidOperandForm = true →
      (∃ k, oper = Oper.imm k) ∨ (∃ r2, regindex r oper = .ok r2 0)) := by
  refine ⟨?_, ?_, ?_, ?_⟩
  · rintro k rfl
    rfl
  · intro r1 hreg
    have hne : ∀ k, oper ≠ Oper.imm k := by
      rintro k rfl
      simp [regindex] at hreg
    refine ⟨?_, regindex_ok_pc hreg, regindex_ok_readVal hreg⟩
    rw [store_execute_not_imm r oper hne, hreg]
    simp
  · intro r1 t hreg ht
    have hne : ∀ k, oper ≠ Oper.imm k := by
      rintro k rfl
      simp [regindex] at hreg
    have ht0 : 0 ≤ t := le_of_lt ht
    have hpc1 : r1.pc = r.pc := regindex_ok_pc hreg
    have hacc1 : r1.acc = r.acc := regindex_ok_readVal hreg 0
    rw [store_execute_not_imm r oper hne, hreg]
    simp only [if_neg (by omega : ¬ t = 0), Register.getAccumulator_eq,
      Register.setAddress_nonneg (r1.grow 0) t r1.acc ht0]
    refine ⟨_, rfl, ?_, ?_⟩
    · rw [Register.pc_incrementPc, Register.pc_mk, Register.grow_pc, hpc1]
    · rw [Register.readVal_incrementPc, Register.readVal_mk]
      rw [getD_set_self _ _ _ (by
        have := Register.grow_length_lt (r1.grow 0) t ht0
        omega)]
      exact hacc1
  · intro e r1 he hinv
    by_cases himm : ∃ k, oper = Oper.imm k
    · exact Or.inl himm
    · have hne : ∀ k, oper ≠ Oper.imm k := fun k hk => himm ⟨k, hk⟩
      rw [store_execute_not_imm r oper hne] at he
      right
      cases hreg : regindex r oper with
      | error e2 r2 =>
        rw [hreg] at he
        have hk : e2 = .indexError := regindex_error_kind hne hreg
        have he2 : e2 = e := ((ExecResult.error.injEq _ _ _ _).mp he).1
        rw [← he2, hk] at hinv
        simp [RamError.isInvalidOperandForm] at hinv
      | ok r2 t =>
        rw [hreg] at he
        by_cases ht : t = 0
        · subst ht
          exact ⟨r2, rfl⟩
        · simp only [if_neg ht, Register.getAccumulator_eq] at he
          cases hset : (r2.grow 0).setAddress t r2.acc with
          | ok r3 =>
            rw [hset] at he
            exact absurd he (by simp)
          | error e3 r3 =>
            rw [hset] at he
            have hk : e3 = .indexError := setAddress_error_kind hset
            have he3 : e3 = e := ((ExecResult.error.injEq _ _ _ _).mp he).1
            rw [← he3, hk] at hinv
            simp [RamError.isInvalidOperandForm] at hinv

/-- Witness for the amended C6: `STORE 2` with accumulator 5 writes 5 to
register 2 and bumps the PC. -/
theorem store_semantics_wit :
    ∃ r', CommandStore.execute ⟨[5], 3⟩ (Oper.dir 2) = .ok r' ∧
      r'.pc = Register.pc ⟨[5], 3⟩ + 1 ∧
      r'.readVal (Int.toNat 2) = Register.acc ⟨[5], 3⟩ :=
  (store_semantics ⟨[5], 3⟩ (Oper.dir 2)).2.2.1 ⟨[5], 3⟩ 2 rfl (by decide)

/-- C7: `GOTO` and `JZERO` reject every immediate or indirect operand with
their "illegal operand" (InvalidOperandForm) error, raised with the state
untouched; on a bare literal `k`, `GOTO` sets the PC to `k` unconditionally
and `JZERO` sets it to `k` when the accumulator is 0 and to PC+1 otherwise,
leaving all register values unchanged. -/
theorem goto_jzero_semantics (r : Register) (oper : Oper) :
    (∀ k, (oper = Oper.imm k ∨ oper = Oper.ind k) →
      CommandGoto.execute r oper = .error .gotoIllegalOperand r ∧
      CommandJzero.execute r oper = .error .jzeroIllegalOperand r) ∧
    (∀ k, oper = Oper.dir k →
      CommandGoto.execute r oper = .ok (r.setPc k) ∧
      (r.setPc k).register = r.register ∧
      ∃ r', CommandJzero.execute r oper = .ok r' ∧
        (∀ b, r'.readVal b = r.readVal b) ∧
        r'.pc = (if r.acc = 0 then k else r.pc + 1)) := by
  constructor
  · rintro k (rfl | rfl) <;> exact ⟨rfl, rfl⟩
  · rintro k rfl
    refine ⟨rfl, rfl, ?_⟩
    simp only [CommandJzero.execute, Register.getAccumulator_eq]
    by_cases ha : r.acc = 0
    · simp only [if_pos ha]
      refine ⟨_, rfl, ?_, ?_⟩
      · intro b
        rw [Register.readVal_setPc, Register.readVal_grow]
      · rw [Register.pc_setPc]
    · simp only [if_neg ha]
      refine ⟨_, rfl, ?_, ?_⟩
      · intro b
        rw [Register.readVal_incrementPc, Register.readVal_grow]
      · rw [Register.pc_incrementPc, Register.grow_pc]

/-- Witness for C7: `GOTO 7` / `JZERO 7` on the fresh machine. -/
theorem goto_jzero_semantics_wit :
    CommandGoto.execute ⟨[], 1⟩ (Oper.dir 7) = .ok (Register.setPc ⟨[], 1⟩ 7) ∧
    (Register.setPc ⟨[], 1⟩ 7).register = Register.register ⟨[], 1⟩ ∧
    ∃ r', CommandJzero.execute ⟨[], 1⟩ (Oper.dir 7) = .ok r' ∧
      (∀ b, r'.readVal b = Register.readVal ⟨[], 1⟩ b) ∧
      r'.pc = (if Register.acc ⟨[], 1⟩ = 0 then 7 else Register.pc ⟨[], 1⟩ + 1) :=
  (goto_jzero_semantics ⟨[], 1⟩ (Oper.dir 7)).2 7 rfl

/-- Counterexample to C4 as stated: the PC -1 lies outside the program's
bounds per the claim ("including negative values"), but the fetch
`self.prog[-1]` is Python's from-the-end indexing: on a 2-line table it
fetches the last instruction (`END`), executes it, and the machine halts
normally instead of faulting with AddressOutOfProgram. -/
theorem fetch_negative_pc_wraps_cx :
    Ram.run [("PROG", Oper.dir 0), ("END", Oper.dir 0)] 2 ⟨[], -1⟩ =
      .halted ⟨[], 0⟩ ∧
    (Outcome.halted ⟨[], 0⟩ ≠
      Outcome.fault (.abnormalTermination (-1)) ⟨[], -1⟩) := by
  refine ⟨by decide, by decide⟩

/-- C4 amended: for every PC at or beyond the program table's length, or
below minus its length (a negative PC within minus-length .. -1 instead
wraps from the end of the table, Python list semantics), the fetch raises
the "Abnormal Termination" error (AddressOutOfProgram): the run faults
immediately with the state untouched, for any remaining fuel, executing no
instruction and never looping. -/
theorem fetch_out_of_bounds_faults (prog : List (String × Oper)) (r : Register) (n : Nat)
    (hpc : r.pc ≠ 0)
    (hout : r.pc < -(prog.length : Int) ∨ (prog.length : Int) ≤ r.pc) :
    Ram.run prog (n + 1) r = .fault (.abnormalTermination r.pc) r := by
  rw [Ram.run]
  rw [if_neg hpc]
  rw [(pyGet_eq_none_iff prog r.pc).mpr hout]

/-- Witness for the amended C4: PC 20 on the 13-line example program. -/
theorem fetch_out_of_bounds_faults_wit :
    Ram.run exampleProg (5 + 1) ⟨[], 20⟩ = .fault (.abnormalTermination 20) ⟨[], 20⟩ :=
  fetch_out_of_bounds_faults exampleProg ⟨[], 20⟩ 5 (by decide) (by right; decide)

/-- C1 is violated by the code: the dispatcher catches the `KeyError` of an
unknown opcode, prints "Command ... not found", and returns with the
machine state (including the PC) untouched, so `Ram.run` refetches the
same instruction forever.  On the failing input — a program whose line 1
is the unknown opcode `FOO` — the dispatch step is a state-preserving
no-op (apart from the printed message) and the run neither faults nor
halts for any number of iterations: the error is never surfaced to the
caller. -/
theorem unknownOpcode_silently_loops :
    CommandHandler.execute ⟨[], 1⟩ ("FOO", Oper.dir 0) = .ok ⟨[], 1⟩ ∧
    ∀ n, Ram.run [("PROG", Oper.dir 0), ("FOO", Oper.dir 0)] n ⟨[], 1⟩ =
      .outOfFuel ⟨[], 1⟩ := by
  refine ⟨rfl, ?_⟩
  intro n
  induction n with
  | zero => rfl
  | succ m ih =>
    have hstep : Ram.run [("PROG", Oper.dir 0), ("FOO", Oper.dir 0)] (m + 1) ⟨[], 1⟩ =
        Ram.run [("PROG", Oper.dir 0), ("FOO", Oper.dir 0)] m ⟨[], 1⟩ := rfl
    rw [hstep]
    exact ih

/-- C10: starting from registers `[0, 3, 6]` with PC 1, the repository's
example multiplication program halts (PC reaches 0 within 40 iterations)
with final accumulator 3 * 6 = 18. -/
theorem example_program_multiplies :
    Ram.run exampleProg 40 ⟨[0, 3, 6], 1⟩ = .halted ⟨[18, 0, 6, 18], 0⟩ ∧
    Register.acc ⟨[18, 0, 6, 18], 0⟩ = 18 := by
  refine ⟨by decide, by decide⟩
